import Mathlib

/-!
Verification development for the `eml` mail-parsing library.

The Go sources are shallowly embedded: byte slices (`[]byte`) become
`List Nat` (each element a byte value), Go strings become `List Nat` of
their bytes (all string constants involved are ASCII), fallible functions
return `Option`/`Except`, and the hand-rolled scanners become structurally
recursive functions.  External collaborators (Go standard library /
third-party packages: `mime.ParseMediaType`, `mime/multipart`,
charset transcoding, RFC2047 word decoding, address/date grammars,
base64 and quoted-printable codecs) are abstracted as fields of a
`Collab` record, exactly at the interface the source consumes them.
-/

/-- Bytes of an ASCII string constant. -/
def ascii (s : String) : List Nat := s.data.map Char.toNat

/-- `isWSP` from raw.go: space or horizontal tab. -/
def isWSP (b : Nat) : Bool := b = 32 || b = 9

/-- A raw header, from raw.go: `RawHeader{Key, Value []byte}`. -/
structure RawHeader where
  Key : List Nat
  Value : List Nat
deriving DecidableEq

/-- A raw message, from raw.go: ordered raw headers plus the body bytes. -/
structure RawMessage where
  RawHeaders : List RawHeader
  Body : List Nat
deriving DecidableEq

/-- `bytes.Replace(v, CRLF, nil, -1)`: remove every (non-overlapping,
left-to-right) occurrence of the two-byte sequence CR LF. -/
def replaceCRLF : List Nat → List Nat
  | [] => []
  | [b] => [b]
  | b :: c :: rest =>
    if b = 13 ∧ c = 10 then replaceCRLF rest else b :: replaceCRLF (c :: rest)

/-- The four scanner states of `ParseRaw` (raw.go). -/
inductive PState
  | READY
  | HKEY
  | HVWS
  | HVAL
deriving DecidableEq

/-- The byte-at-a-time loop of `ParseRaw` (raw.go lines 43-86).  The Go
code walks an index `i` and later slices `s[kstart:kend]` / `s[vstart:i]`;
here the same bytes are carried in the accumulators `kacc` (key bytes seen
so far while in HKEY), `key` (the finished key, fixed at the `:`) and
`vacc` (value bytes seen so far while in HVAL).  When a header is emitted
the accumulators are cleared (in the Go code the index variables survive
an emission, but are dead: each is overwritten before its next use).
Reaching the end of the input without the header/body separator is the
"unexpected EOF" error, modelled as `none`. -/
def parseRawLoop : List Nat → PState → List Nat → List Nat → List Nat →
    List RawHeader → Option RawMessage
  | [], _, _, _, _, _ => none
  | b :: rest, .READY, kacc, key, vacc, acc =>
    if b = 13 ∧ rest.head? = some 10 then some ⟨acc, rest.tail⟩
    else if b = 10 then some ⟨acc, rest⟩
    else parseRawLoop rest .HKEY [b] key vacc acc
  | b :: rest, .HKEY, kacc, key, vacc, acc =>
    if b = 58 then parseRawLoop rest .HVWS kacc kacc vacc acc
    else parseRawLoop rest .HKEY (kacc ++ [b]) key vacc acc
  | b :: rest, .HVWS, kacc, key, vacc, acc =>
    if isWSP b then parseRawLoop rest .HVWS kacc key vacc acc
    else parseRawLoop rest .HVAL kacc key [b] acc
  | b :: c1 :: c2 :: r2, .HVAL, kacc, key, vacc, acc =>
    if b = 13 ∧ c1 = 10 ∧ ¬ isWSP c2 then
      parseRawLoop (c2 :: r2) .READY [] [] []
        (acc ++ [⟨key, replaceCRLF vacc⟩])
    else if b = 10 ∧ ¬ isWSP c1 then
      parseRawLoop (c1 :: c2 :: r2) .READY [] [] []
        (acc ++ [⟨key, replaceCRLF vacc⟩])
    else parseRawLoop (c1 :: c2 :: r2) .HVAL kacc key (vacc ++ [b]) acc
  | [b, c1], .HVAL, kacc, key, vacc, acc =>
    if b = 10 ∧ ¬ isWSP c1 then
      parseRawLoop [c1] .READY [] [] []
        (acc ++ [⟨key, replaceCRLF vacc⟩])
    else parseRawLoop [c1] .HVAL kacc key (vacc ++ [b]) acc
  | [b], .HVAL, kacc, key, vacc, acc =>
    parseRawLoop [] .HVAL kacc key (vacc ++ [b]) acc

/-- `ParseRaw` from raw.go: tokenize a byte buffer into raw headers plus
body; `none` models the "unexpected EOF" error. -/
def ParseRaw (s : List Nat) : Option RawMessage :=
  parseRawLoop s .READY [] [] [] []

example : ParseRaw (ascii "A: x\r\nB: y\r\n\r\nBODY") =
    some ⟨[⟨ascii "A", ascii "x"⟩, ⟨ascii "B", ascii "y"⟩], ascii "BODY"⟩ := by
  decide

example : ParseRaw (ascii "Subject: Hello\r\n World\r\n\r\nB") =
    some ⟨[⟨ascii "Subject", ascii "Hello World"⟩], ascii "B"⟩ := by
  decide

example : ParseRaw (ascii "A: x") = none := by decide

/-- Follows the spec's words (§4.1): whether the byte-at-a-time scan ever
reaches the header/body separator — a bare LF, or CR immediately followed
by LF, encountered in the READY state — before end of input.  Same state
transitions as `parseRawLoop`, but merely reporting whether the separator
is found. -/
def scanFindsSep : List Nat → PState → Bool
  | [], _ => false
  | b :: rest, .READY =>
    if b = 13 ∧ rest.head? = some 10 then true
    else if b = 10 then true
    else scanFindsSep rest .HKEY
  | b :: rest, .HKEY =>
    if b = 58 then scanFindsSep rest .HVWS
    else scanFindsSep rest .HKEY
  | b :: rest, .HVWS =>
    if isWSP b then scanFindsSep rest .HVWS
    else scanFindsSep rest .HVAL
  | b :: c1 :: c2 :: r2, .HVAL =>
    if b = 13 ∧ c1 = 10 ∧ ¬ isWSP c2 then scanFindsSep (c2 :: r2) .READY
    else if b = 10 ∧ ¬ isWSP c1 then scanFindsSep (c1 :: c2 :: r2) .READY
    else scanFindsSep (c1 :: c2 :: r2) .HVAL
  | [b, c1], .HVAL =>
    if b = 10 ∧ ¬ isWSP c1 then scanFindsSep [c1] .READY
    else scanFindsSep [c1] .HVAL
  | [b], .HVAL => scanFindsSep [] .HVAL

theorem parseRawLoop_none_iff (s : List Nat) (st : PState) (kacc key vacc : List Nat)
    (acc : List RawHeader) :
    parseRawLoop s st kacc key vacc acc = none ↔ scanFindsSep s st = false := by
  induction s, st, kacc, key, vacc, acc using parseRawLoop.induct <;>
    simp_all [parseRawLoop, scanFindsSep] <;>
    (repeat' split) <;> simp_all

/-- C4: `ParseRaw` fails exactly when the scan reaches end-of-input without
encountering the header/body separator (a bare LF or a CRLF seen in the
READY state); a buffer whose first bytes are the separator yields an empty
header sequence with everything after the separator as Body and no error,
and a buffer never reaching a separator is an error even with zero
headers. -/
theorem C4_parseRaw_error_iff_no_separator :
    (∀ body, ParseRaw (10 :: body) = some ⟨[], body⟩) ∧
    (∀ body, ParseRaw (13 :: 10 :: body) = some ⟨[], body⟩) ∧
    (∀ s, ParseRaw s = none ↔ scanFindsSep s .READY = false) := by
  refine ⟨fun body => ?_, fun body => ?_,
    fun s => parseRawLoop_none_iff s .READY [] [] [] []⟩
  · simp [ParseRaw, parseRawLoop]
  · simp [ParseRaw, parseRawLoop]

theorem C4_witness :
    ParseRaw (ascii "Key: value") = none ∧
      ParseRaw (10 :: ascii "B") = some ⟨[], ascii "B"⟩ :=
  ⟨(C4_parseRaw_error_iff_no_separator.2.2 (ascii "Key: value")).mpr (by decide),
   C4_parseRaw_error_iff_no_separator.1 (ascii "B")⟩

/-- Logical content of one header line: key bytes, the whitespace written
after the colon, and the value bytes (the value may itself contain folded
line breaks; those bytes are part of the logical content here). -/
structure HdrSpec where
  key : List Nat
  ws : List Nat
  value : List Nat

/-- Every LF byte is immediately followed (inside the list) by a space or
tab, so the scanner treats it as a folded line break and not as a header
terminator. -/
def pairsOk : List Nat → Bool
  | [] => true
  | [_] => true
  | a :: b :: r => (if a = 10 then isWSP b else true) && pairsOk (b :: r)

/-- One physical line ending: CRLF or bare LF. -/
def ending (crlf : Bool) : List Nat := if crlf then [13, 10] else [10]

/-- Render a logical message, choosing per header line (and for the
header/body separator) whether the line ending is CRLF or bare LF. -/
def renderMsg : List HdrSpec → List Bool → Bool → List Nat → List Nat
  | [], _, sep, body => ending sep ++ body
  | h :: hs, es, sep, body =>
    h.key ++ [58] ++ h.ws ++ h.value ++ ending (es.headD true) ++
      renderMsg hs es.tail sep body

/-- Well-formed logical header: nonempty key free of CR, LF, colon and
whitespace bytes; whitespace-only `ws`; nonempty value starting with a
non-whitespace, non-CR/LF byte, not ending in CR or LF, and whose inner LF
bytes are each followed by space/tab (folded continuations). -/
def HdrWF (h : HdrSpec) : Prop :=
  h.key ≠ [] ∧ (∀ b ∈ h.key, b ≠ 13 ∧ b ≠ 10 ∧ b ≠ 58 ∧ ¬ isWSP b) ∧
  (∀ b ∈ h.ws, isWSP b) ∧
  h.value ≠ [] ∧
  (¬ isWSP (h.value.headD 0) ∧ h.value.headD 0 ≠ 13 ∧ h.value.headD 0 ≠ 10) ∧
  (h.value.getLastD 0 ≠ 13 ∧ h.value.getLastD 0 ≠ 10) ∧
  pairsOk h.value = true

instance (h : HdrSpec) : Decidable (HdrWF h) := by
  unfold HdrWF
  infer_instance

lemma pairsOk_tail {a : Nat} {l : List Nat} (h : pairsOk (a :: l) = true) :
    pairsOk l = true := by
  cases l with
  | nil => rfl
  | cons b r =>
    rw [pairsOk, Bool.and_eq_true] at h
    exact h.2

lemma loop_key (k : List Nat) (rest kacc key vacc : List Nat) (acc : List RawHeader)
    (hk : ∀ b ∈ k, b ≠ 58) :
    parseRawLoop (k ++ 58 :: rest) .HKEY kacc key vacc acc =
      parseRawLoop rest .HVWS (kacc ++ k) (kacc ++ k) vacc acc := by
  induction k generalizing kacc with
  | nil => simp [parseRawLoop]
  | cons a k ih =>
    have ha : ¬ (a = 58) := hk a (List.mem_cons_self a k)
    rw [List.cons_append, parseRawLoop, if_neg ha,
      ih (kacc ++ [a]) (fun b hb => hk b (List.mem_cons_of_mem a hb))]
    simp

lemma loop_ws (w : List Nat) (rest kacc key vacc : List Nat) (acc : List RawHeader)
    (hw : ∀ b ∈ w, isWSP b) :
    parseRawLoop (w ++ rest) .HVWS kacc key vacc acc =
      parseRawLoop rest .HVWS kacc key vacc acc := by
  induction w with
  | nil => rfl
  | cons a w ih =>
    rw [List.cons_append, parseRawLoop, if_pos (hw a (List.mem_cons_self a w)),
      ih (fun b hb => hw b (List.mem_cons_of_mem a hb))]



lemma loop_val (w : List Nat) (e : Bool) (t0 : Nat) (tl kacc key vacc : List Nat)
    (acc : List RawHeader)
    (hp : pairsOk w = true)
    (hl : ∀ x ∈ w.getLast?, x ≠ 13 ∧ x ≠ 10)
    (ht : ¬ isWSP t0) :
    parseRawLoop (w ++ ending e ++ t0 :: tl) .HVAL kacc key vacc acc =
      parseRawLoop (t0 :: tl) .READY [] [] []
        (acc ++ [⟨key, replaceCRLF (vacc ++ w)⟩]) := by
  induction w generalizing vacc with
  | nil =>
    cases e with
    | false =>
      cases tl with
      | nil => simp [ending, parseRawLoop, ht]
      | cons x xs => simp [ending, parseRawLoop, ht]
    | true => simp [ending, parseRawLoop, ht]
  | cons a w ih =>
    cases w with
    | nil =>
      have ha' : a ≠ 13 ∧ a ≠ 10 := hl a (by simp)
      cases e with
      | false =>
        cases tl with
        | nil => simp [ending, parseRawLoop, ht, ha'.1, ha'.2]
        | cons x xs => simp [ending, parseRawLoop, ht, ha'.1, ha'.2]
      | true => simp [ending, parseRawLoop, ht, ha'.1, ha'.2]
    | cons a2 w' =>
      have hrest : ∃ c2 r2, w' ++ (ending e ++ t0 :: tl) = c2 :: r2 := by
        cases w' with
        | nil =>
          cases e with
          | false => exact ⟨10, t0 :: tl, by simp [ending]⟩
          | true => exact ⟨13, 10 :: t0 :: tl, by simp [ending]⟩
        | cons c ws => exact ⟨c, ws ++ (ending e ++ t0 :: tl), rfl⟩
      obtain ⟨c2, r2, hcr⟩ := hrest
      have hc2wsp : a2 = 10 → isWSP c2 = true := by
        intro ha2
        cases w' with
        | nil =>
          exact absurd ha2 (hl a2 (by simp)).2
        | cons c ws =>
          have hc : c2 = c := by
            rw [List.cons_append] at hcr
            injection hcr with h1 h2
            exact h1.symm
          subst hc
          have hpp := pairsOk_tail hp
          rw [pairsOk, Bool.and_eq_true] at hpp
          have := hpp.1
          rwa [ha2, if_pos rfl] at this
      have hcond1 : ¬ (a = 13 ∧ a2 = 10 ∧ ¬ isWSP c2 = true) := by
        rintro ⟨-, h2, h3⟩
        exact h3 (hc2wsp h2)
      have hcond2 : ¬ (a = 10 ∧ ¬ isWSP a2 = true) := by
        rintro ⟨h1, h2⟩
        have hpp := hp
        rw [pairsOk, Bool.and_eq_true] at hpp
        have := hpp.1
        rw [h1, if_pos rfl] at this
        exact h2 this
      have h1 := ih (vacc ++ [a]) (pairsOk_tail hp)
        (by
          intro x hx
          apply hl
          rwa [List.getLast?_cons_cons])
      simp only [List.cons_append, List.append_assoc] at h1 ⊢
      rw [hcr] at h1 ⊢
      conv_lhs => rw [parseRawLoop]
      rw [if_neg hcond1, if_neg hcond2, h1]
      simp

lemma loop_ready_step (b : Nat) (rest kacc key vacc : List Nat) (acc : List RawHeader)
    (h13 : b ≠ 13) (h10 : b ≠ 10) :
    parseRawLoop (b :: rest) .READY kacc key vacc acc =
      parseRawLoop rest .HKEY [b] key vacc acc := by
  rw [parseRawLoop, if_neg (fun hc => h13 hc.1), if_neg h10]

lemma loop_hvws_step (b : Nat) (rest kacc key vacc : List Nat) (acc : List RawHeader)
    (hb : ¬ isWSP b) :
    parseRawLoop (b :: rest) .HVWS kacc key vacc acc =
      parseRawLoop rest .HVAL kacc key [b] acc := by
  rw [parseRawLoop, if_neg hb]

lemma last_not_of_getLastD {v0 : Nat} {vtl : List Nat}
    (h : (v0 :: vtl).getLastD 0 ≠ 13 ∧ (v0 :: vtl).getLastD 0 ≠ 10) :
    ∀ x ∈ vtl.getLast?, x ≠ 13 ∧ x ≠ 10 := by
  intro x hx
  cases vtl with
  | nil => simp at hx
  | cons b r =>
    have h1 : (v0 :: b :: r).getLastD 0 = x := by
      rw [List.getLastD_cons, List.getLastD_eq_getLast?, hx]
      rfl
    rw [h1] at h
    exact h

lemma renderMsg_head (hs : List HdrSpec) (es : List Bool) (sep : Bool) (body : List Nat)
    (hwf : ∀ h ∈ hs, HdrWF h) :
    ∃ t0 tl, renderMsg hs es sep body = t0 :: tl ∧ ¬ isWSP t0 := by
  cases hs with
  | nil =>
    cases sep with
    | false => exact ⟨10, body, by simp [renderMsg, ending], by simp [isWSP]⟩
    | true => exact ⟨13, 10 :: body, by simp [renderMsg, ending], by simp [isWSP]⟩
  | cons h hs =>
    obtain ⟨hk0, hkb, -⟩ := hwf h (by simp)
    obtain ⟨k0, ktl, hkeq⟩ := List.exists_cons_of_ne_nil hk0
    refine ⟨k0, ktl ++ ([58] ++ (h.ws ++ (h.value ++ (ending (es.headD true) ++
      renderMsg hs es.tail sep body)))), ?_, ?_⟩
    · rw [renderMsg, hkeq]
      simp [List.append_assoc]
    · exact (hkb k0 (by simp [hkeq])).2.2.2

lemma loop_render (hs : List HdrSpec) (es : List Bool) (sep : Bool) (body : List Nat)
    (kacc key vacc : List Nat) (acc : List RawHeader)
    (hwf : ∀ h ∈ hs, HdrWF h) :
    parseRawLoop (renderMsg hs es sep body) .READY kacc key vacc acc =
      some ⟨acc ++ hs.map (fun h => ⟨h.key, replaceCRLF h.value⟩), body⟩ := by
  induction hs generalizing es kacc key vacc acc with
  | nil =>
    cases sep with
    | false => simp [renderMsg, ending, parseRawLoop]
    | true => simp [renderMsg, ending, parseRawLoop]
  | cons h hs ih =>
    obtain ⟨hk0, hkb, hwsb, hv0, hvh, hvl, hvp⟩ := hwf h (by simp)
    obtain ⟨k0, ktl, hkeq⟩ := List.exists_cons_of_ne_nil hk0
    obtain ⟨v0, vtl, hveq⟩ := List.exists_cons_of_ne_nil hv0
    obtain ⟨t0, tl, htt, ht0⟩ :=
      renderMsg_head hs es.tail sep body (fun x hx => hwf x (by simp [hx]))
    have hk0f := hkb k0 (by simp [hkeq])
    rw [renderMsg, hkeq, htt]
    simp only [List.cons_append, List.append_assoc, List.nil_append]
    rw [loop_ready_step k0 _ _ _ _ _ hk0f.1 hk0f.2.1]
    rw [loop_key ktl _ _ _ _ _
      (fun b hb => (hkb b (by simp [hkeq, hb])).2.2.1)]
    rw [loop_ws h.ws _ _ _ _ _ hwsb]
    rw [hveq]
    simp only [List.cons_append]
    rw [loop_hvws_step v0 _ _ _ _ _ (by simpa [hveq] using hvh.1)]
    rw [← List.append_assoc]
    rw [loop_val vtl _ t0 tl _ _ _ _
      (by
        have := hvp
        rw [hveq] at this
        exact pairsOk_tail this)
      (last_not_of_getLastD (by rwa [hveq] at hvl))
      ht0]
    rw [← htt, ih _ _ _ _ _ (fun x hx => hwf x (List.mem_cons_of_mem h hx))]
    simp [hkeq, hveq]

/-- C3 counterexample: two buffers with the same logical content
(`A: x` folded with continuation ` y`, then the separator, then body `B`),
one written with bare LF everywhere, the other with CRLF throughout.
`ParseRaw` removes CRLF fold bytes from the value but keeps bare LF fold
bytes, so the two parses differ — refuting the claim as stated. -/
theorem C3_counterexample :
    ParseRaw (ascii "A: x\n y\n\nB") ≠ ParseRaw (ascii "A: x\r\n y\r\n\r\nB") := by
  decide

/-- C3 (amended): for messages of the same logical content, `ParseRaw`
is invariant under the per-line choice of CRLF versus bare LF for the
line endings that terminate header lines and the header/body separator.
(Folded continuation breaks inside a value are part of the logical content
and must be byte-identical in both buffers: a CRLF fold is removed from the
stored value while a bare-LF fold byte is retained, as `C3_counterexample`
shows, so they are not interchangeable.) -/
theorem C3_amended_line_ending_invariance (hs : List HdrSpec) (es es' : List Bool)
    (sep sep' : Bool) (body : List Nat) (hwf : ∀ h ∈ hs, HdrWF h) :
    ParseRaw (renderMsg hs es sep body) = ParseRaw (renderMsg hs es' sep' body) := by
  rw [ParseRaw, ParseRaw, loop_render hs es sep body _ _ _ _ hwf,
    loop_render hs es' sep' body _ _ _ _ hwf]

theorem C3_amended_witness :
    ParseRaw (renderMsg [⟨ascii "A", [32], ascii "x"⟩, ⟨ascii "B", [32], ascii "yz"⟩]
        [false, true] false (ascii "BODY")) =
      ParseRaw (renderMsg [⟨ascii "A", [32], ascii "x"⟩, ⟨ascii "B", [32], ascii "yz"⟩]
        [true, false] true (ascii "BODY")) :=
  C3_amended_line_ending_invariance _ _ _ _ _ _ (by decide)

/-- ASCII lower-casing of one byte.  The keys and media-type constants the
source compares after `strings.ToLower` are all ASCII, so only the ASCII
case fold is exercised. -/
def toLowerB (b : Nat) : Nat := if 65 ≤ b ∧ b ≤ 90 then b + 32 else b

/-- ASCII upper-casing of one byte (for `strings.ToUpper`). -/
def toUpperB (b : Nat) : Nat := if 97 ≤ b ∧ b ≤ 122 then b - 32 else b

/-- First index at which `sub` occurs inside the second list (leftmost
match, as Go's regexp and `strings.Index` find). -/
def findSubIdx (sub : List Nat) : List Nat → Option Nat
  | [] => if sub = [] then some 0 else none
  | a :: t => if sub.isPrefixOf (a :: t) then some 0 else (findSubIdx sub t).map (· + 1)

/-- `strings.Contains`. -/
def hasSub (s sub : List Nat) : Bool :=
  match findSubIdx sub s with
  | some _ => true
  | none => false

namespace eml

/-- A leaf body part, from decoder.go: `Part{Type, Charset string; Data
[]byte; Headers map[string][]string}`.  The Go field `Type` is a reserved
word here, hence `PartType`. -/
structure Part where
  PartType : List Nat
  Charset : List Nat
  Data : List Nat
  Headers : List (List Nat × List (List Nat))
deriving DecidableEq

/-- One part as delivered by the `mime/multipart` reader: its MIME headers
and the bytes `ioutil.ReadAll` returns for it. -/
structure MPartRaw where
  headers : List (List Nat × List (List Nat))
  data : List Nat
deriving DecidableEq

/-- Outcome of draining a `multipart.Reader`: the parts it yields, and
whether the terminating `NextPart` error is `io.EOF` (`finalEOF = true`)
or some other reader error. -/
structure MPSplit where
  parts : List MPartRaw
  finalEOF : Bool
deriving DecidableEq

/-- Addresses are produced by the external address grammar; they are
opaque to the code under verification, kept here as rendered bytes. -/
abbrev Address := List Nat

/-- The external collaborators the source consumes, at the interfaces it
consumes them (spec §6): media-type parsing, the multipart reader,
the RFC5322 tokenizer and address grammar, the date parser, RFC2047 word
decoding, charset transcoding, and the base64/quoted-printable codecs.
`parseSingleAddress` returns Go-style `(Address, error)` pairs (the
address may be absent on error); `b64Decode` returns the partially decoded
bytes together with the error, as `base64.StdEncoding.DecodeString`
does. -/
structure Collab where
  parseMediaType : List Nat → Option (List Nat × List (List Nat × List Nat))
  multipartSplit : List Nat → List Nat → MPSplit
  tokenize : List Nat → Except Unit (List (List Nat))
  parseAddress : List (List Nat) → Except Unit Address
  parseSingleAddress : List Nat → Option Address × Option Unit
  parseDate : List Nat → List Nat
  decodeHeaderWord : List Nat → Except Unit (List Nat)
  charsetRead : List Nat → List Nat → Except Unit (List Nat)
  b64Decode : List Nat → List Nat × Option Unit
  qpDecode : List Nat → List Nat

/-- Lookup in a `mime.ParseMediaType` parameter map. -/
def psGet : List (List Nat × List Nat) → List Nat → Option (List Nat)
  | [], _ => none
  | (k, v) :: rest, key => if k = key then some v else psGet rest key

/-- Lookup in a `textproto.MIMEHeader`-style map. -/
def mhGet : List (List Nat × List (List Nat)) → List Nat → Option (List (List Nat))
  | [], _ => none
  | (k, vs) :: rest, key => if k = key then some vs else mhGet rest key

/-- The Go expression `hdrs[key][0]`: `none` models the out-of-bounds
index on a missing key (nil slice) or an empty value slice — a runtime
panic in Go. -/
def mhFirst (hs : List (List Nat × List (List Nat))) (k : List Nat) : Option (List Nat) :=
  (mhGet hs k).bind List.head?

/-- The charset extraction for a leaf part (decoder.go line 103):
`regexp.MustCompile("(?is)charset=(.*)").FindStringSubmatch(ct)` takes
everything after the first case-insensitive `charset=`, defaulting to
`UTF-8` when there is no match. -/
def leafCharset (ct : List Nat) : List Nat :=
  match findSubIdx (ascii "charset=") (ct.map toLowerB) with
  | some i => ct.drop (i + 8)
  | none => ascii "UTF-8"

/-- Errors (and modelling artifacts) of the body walker.
`invalidMediaType`, `missingBoundary` and `readerFailure` are the Go error
values `parseBody` returns; `headerIndexPanic` models the runtime panic of
`p.Header["Content-Type"][0]` on a part without a Content-Type header (a
panic propagates, it is never treated as a recoverable error);
`fuelOut` is an artifact of the explicit recursion bound. -/
inductive PBErr
  | invalidMediaType
  | missingBoundary
  | readerFailure
  | headerIndexPanic
  | fuelOut
deriving DecidableEq

/-- The `NextPart` loop of `parseBody` (decoder.go lines 94-112), with the
recursive `parseBody` call abstracted as `pb`: for each part, read its
Content-Type header value (`p.Header["Content-Type"][0]`, a runtime panic
when the part has none) and recurse; a successful recursion splices the
sub-parts in, a failed one appends the part itself as a leaf with the
pattern-matched charset.  A panic from the recursion propagates (as does
the fuel artifact); any other recursion error means "leaf". -/
def parseBodyParts (pb : List Nat → List Nat → Except PBErr (List Part)) :
    List MPartRaw → Except PBErr (List Part)
  | [] => .ok []
  | p :: rest =>
    match mhFirst p.headers (ascii "Content-Type") with
    | none => .error .headerIndexPanic
    | some ct0 =>
      match pb ct0 p.data with
      | .ok subparts =>
        match parseBodyParts pb rest with
        | .error e => .error e
        | .ok tailParts => .ok (subparts ++ tailParts)
      | .error .headerIndexPanic => .error .headerIndexPanic
      | .error .fuelOut => .error .fuelOut
      | .error _ =>
        match parseBodyParts pb rest with
        | .error e => .error e
        | .ok tailParts => .ok (⟨ct0, leafCharset ct0, p.data, p.headers⟩ :: tailParts)

/-- `parseBody` from decoder.go: parse a body under a declared content
type.  Without a `boundary` parameter a `multipart/*` type is the
"multipart specified without boundary" error, any other type wraps the
whole raw body as a single `Part` (Go re-reads it through
`mail.ReadMessage("\r\n" + body)`, which on input with a leading blank
line always succeeds with an empty header map, giving the part's empty
`Headers`).  With a boundary the multipart reader is drained and each
enclosed part is processed by `parseBodyParts`; a non-EOF terminating
reader error is surfaced.  The fuel bound is an embedding artifact for the
recursion through nested multiparts (Go recursion depth is bounded by the
input nesting). -/
def parseBody (c : Collab) : Nat → List Nat → List Nat → Except PBErr (List Part)
  | 0, _, _ => .error .fuelOut
  | fuel + 1, ct, body =>
    match c.parseMediaType ct with
    | none => .error .invalidMediaType
    | some (mt, ps) =>
      match psGet ps (ascii "boundary") with
      | none =>
        if (ascii "multipart").isPrefixOf mt then .error .missingBoundary
        else .ok [⟨mt, (psGet ps (ascii "charset")).getD [], body, []⟩]
      | some boundary =>
        let r := c.multipartSplit boundary body
        match parseBodyParts (parseBody c fuel) r.parts with
        | .error e => .error e
        | .ok parts => if r.finalEOF then .ok parts else .error .readerFailure


deriving instance DecidableEq for Except

/-- C5: on a content type whose parsed parameters lack a `boundary`,
`parseBody` fails with MissingBoundary exactly when the media type is
`multipart/*`; for a non-multipart media type it succeeds with a single
Part carrying the declared media type, the declared charset parameter and
the whole raw body. -/
theorem C5_missing_boundary_iff_multipart (c : Collab) (fuel : Nat) (ct body mt : List Nat)
    (ps : List (List Nat × List Nat))
    (hmt : c.parseMediaType ct = some (mt, ps))
    (hbd : psGet ps (ascii "boundary") = none)
    (hf : 0 < fuel) :
    (parseBody c fuel ct body = .error .missingBoundary ↔
      (ascii "multipart").isPrefixOf mt = true) ∧
    ((ascii "multipart").isPrefixOf mt = false →
      parseBody c fuel ct body =
        .ok [⟨mt, (psGet ps (ascii "charset")).getD [], body, []⟩]) := by
  obtain ⟨f, rfl⟩ : ∃ f, fuel = f + 1 := ⟨fuel - 1, (Nat.succ_pred_eq_of_pos hf).symm⟩
  by_cases hpre : (ascii "multipart").isPrefixOf mt = true <;>
    simp [parseBody, hmt, hbd, hpre]

/-- Concrete collaborator instance used to exercise the body walker: a
media-type parser and multipart reader defined on the handful of content
types and bodies of the examples (bodies are tagged by a single marker
byte). -/
def cEx : Collab where
  parseMediaType := fun ct =>
    if ct = ascii "multipart/mixed; boundary=b" then
      some (ascii "multipart/mixed", [(ascii "boundary", ascii "b")])
    else if ct = ascii "multipart/alternative; boundary=c" then
      some (ascii "multipart/alternative", [(ascii "boundary", ascii "c")])
    else if ct = ascii "text/plain; charset=UTF-8" then
      some (ascii "text/plain", [(ascii "charset", ascii "UTF-8")])
    else if ct = ascii "text/html; charset=UTF-8" then
      some (ascii "text/html", [(ascii "charset", ascii "UTF-8")])
    else if ct = ascii "application/pdf" then
      some (ascii "application/pdf", [])
    else if ct = ascii "multipart/alternative" then
      some (ascii "multipart/alternative", [])
    else if ct = ascii "text/plain; charset=ISO-8859-1" then
      some (ascii "text/plain", [(ascii "charset", ascii "ISO-8859-1")])
    else if ct = ascii "multipart/mixed" then
      some (ascii "multipart/mixed", [])
    else none
  multipartSplit := fun boundary body =>
    if boundary = ascii "b" ∧ body = [0] then
      ⟨[⟨[(ascii "Content-Type", [ascii "multipart/alternative; boundary=c"])], [1]⟩,
        ⟨[(ascii "Content-Type", [ascii "application/pdf"]),
          (ascii "Content-Disposition", [ascii "attachment; filename=\"f.pdf\""])], [4]⟩],
       true⟩
    else if boundary = ascii "c" ∧ body = [1] then
      ⟨[⟨[(ascii "Content-Type", [ascii "text/plain; charset=UTF-8"])], [2]⟩,
        ⟨[(ascii "Content-Type", [ascii "text/html; charset=UTF-8"])], [3]⟩],
       true⟩
    else if boundary = ascii "b" ∧ body = [9] then
      ⟨[⟨[(ascii "Content-Type", [ascii "multipart/alternative"])], [5]⟩], true⟩
    else if boundary = ascii "b" ∧ body = [8] then
      ⟨[⟨[], [6]⟩], true⟩
    else ⟨[], true⟩
  tokenize := fun _ => .error ()
  parseAddress := fun _ => .error ()
  parseSingleAddress := fun _ => (none, some ())
  parseDate := fun _ => []
  decodeHeaderWord := fun d => .ok d
  charsetRead := fun _ d => .ok d
  b64Decode := fun d => (d, none)
  qpDecode := fun d => d

theorem C5_witness :
    parseBody cEx 1 (ascii "text/plain; charset=ISO-8859-1") (ascii "hi") =
      .ok [⟨ascii "text/plain", ascii "ISO-8859-1", ascii "hi", []⟩] ∧
    parseBody cEx 1 (ascii "multipart/mixed") (ascii "hi") = .error .missingBoundary :=
  ⟨(C5_missing_boundary_iff_multipart cEx 1 (ascii "text/plain; charset=ISO-8859-1")
      (ascii "hi") (ascii "text/plain") [(ascii "charset", ascii "ISO-8859-1")]
      (by decide) (by decide) (by decide)).2 (by decide),
   ((C5_missing_boundary_iff_multipart cEx 1 (ascii "multipart/mixed")
      (ascii "hi") (ascii "multipart/mixed") []
      (by decide) (by decide) (by decide)).1).mpr (by decide)⟩

/-- C2 counterexample: a successfully parsed multipart/mixed body whose
single enclosed part declares `multipart/alternative` with no boundary
parameter.  The recursive parse of that part fails (MissingBoundary), so
decoder.go keeps the part as a leaf whose `Type` is the raw header value
`multipart/alternative` — so a returned Part can have a `multipart/*`
media type, refuting the claim as stated. -/
theorem C2_counterexample :
    parseBody cEx 2 (ascii "multipart/mixed; boundary=b") [9] =
      .ok [⟨ascii "multipart/alternative", ascii "UTF-8", [5],
            [(ascii "Content-Type", [ascii "multipart/alternative"])]⟩] ∧
    (ascii "multipart").isPrefixOf (ascii "multipart/alternative") = true := by
  decide

/-- C2 (amended): the flattening behaviour as claimed holds whenever every
nested multipart part itself parses: a multipart/mixed body holding a
nested multipart/alternative (with boundary, containing text/plain and
text/html leaves) plus one attachment yields exactly three leaf Parts in
depth-first, left-to-right document order, none of them multipart/* (each
such leaf Part's Headers come from the re-synthesized mini-message and
are therefore empty; original part headers survive only on the
failed-recursion leaf path) — a
Part keeps a multipart/* type only when the nested part's own parse fails
(for example for a missing boundary), as `C2_counterexample` shows. -/
theorem C2_amended_flattening :
    parseBody cEx 3 (ascii "multipart/mixed; boundary=b") [0] =
      .ok [⟨ascii "text/plain", ascii "UTF-8", [2], []⟩,
           ⟨ascii "text/html", ascii "UTF-8", [3], []⟩,
           ⟨ascii "application/pdf", [], [4], []⟩] := by
  decide


/-- C6: evaluating the body walker on a multipart body whose single
enclosed part carries no Content-Type header: the Go expression
`p.Header["Content-Type"][0]` indexes a nil slice — a runtime panic, not
a defaulted read. -/
theorem C6_missing_content_type_panics :
    parseBody cEx 1 (ascii "multipart/mixed; boundary=b") [8] =
      .error .headerIndexPanic := by
  decide

/-- Go `unicode.IsSpace` restricted to the ASCII range, as used through
`bytes.TrimSpace` and `strings.Fields` on header bytes. -/
def isSpaceB (b : Nat) : Bool := b = 32 || (9 ≤ b && b ≤ 13)

/-- Drop matching bytes from the end of a list. -/
def dropWhileEnd (p : Nat → Bool) (l : List Nat) : List Nat :=
  (l.reverse.dropWhile p).reverse

/-- `bytes.TrimSpace` (ASCII range). -/
def trimSpaceB (l : List Nat) : List Nat :=
  dropWhileEnd isSpaceB (l.dropWhile isSpaceB)

/-- `bytes.Trim` / `strings.Trim` with a byte cutset. -/
def trimCut (l cut : List Nat) : List Nat :=
  dropWhileEnd (cut.contains ·) (l.dropWhile (cut.contains ·))

/-- Accumulator loop of `strings.Fields`. -/
def fieldsGo (cur : List Nat) : List Nat → List (List Nat)
  | [] => if cur = [] then [] else [cur.reverse]
  | b :: r =>
    if isSpaceB b then
      if cur = [] then fieldsGo [] r else cur.reverse :: fieldsGo [] r
    else fieldsGo (b :: cur) r

/-- `strings.Fields`: the maximal whitespace-free runs. -/
def fieldsB (l : List Nat) : List (List Nat) := fieldsGo [] l

/-- Accumulator loop of `strings.Split` on one separator byte. -/
def splitByteGo (sep : Nat) (cur : List Nat) : List Nat → List (List Nat)
  | [] => [cur.reverse]
  | b :: r =>
    if b = sep then cur.reverse :: splitByteGo sep [] r
    else splitByteGo sep (b :: cur) r

/-- `strings.Split` on a single separator byte (keeps empty segments). -/
def splitByte (sep : Nat) (l : List Nat) : List (List Nat) := splitByteGo sep [] l

/-- `bytes.TrimSuffix`: drop one trailing occurrence when present. -/
def trimOneSuffix (l suf : List Nat) : List Nat :=
  if suf.isSuffixOf l then l.take (l.length - suf.length) else l

/-- `bytes.Replace(data, old, nil, 1)`: drop the first occurrence of
`old`; with an empty `old` the empty replacement is inserted up front,
leaving `data` unchanged. -/
def dropFirstOccurrence (data old : List Nat) : List Nat :=
  if old = [] then data
  else
    match findSubIdx old data with
    | none => data
    | some i => data.take i ++ data.drop (i + old.length)

/-- The ParsedHeaders update (header.go lines 116-120): append the value
under the key, creating the entry when missing.  (A Go map is unordered;
this association list keeps first-insertion order, which no consumer
observes.) -/
def mapAppend : List (List Nat × List (List Nat)) → List Nat → List Nat →
    List (List Nat × List (List Nat))
  | [], k, v => [(k, [v])]
  | (k', vs) :: rest, k, v =>
    if k' = k then (k', vs ++ [v]) :: rest else (k', vs) :: mapAppend rest k v

/-- `decodeRFC2047` (decoder source): wraps the external
`mime.WordDecoder.DecodeHeader` and falls back to the raw bytes with a nil
error on failure, so it never fails. -/
def decodeRFC2047 (c : Collab) (d : List Nat) : List Nat × Option Unit :=
  match c.decodeHeaderWord d with
  | .error _ => (d, none)
  | .ok p => (p, none)

/-- `Decode` from decoder.go: same wrap-and-swallow as `decodeRFC2047`. -/
def Decode (c : Collab) (bstr : List Nat) : List Nat × Option Unit :=
  match c.decodeHeaderWord bstr with
  | .error _ => (bstr, none)
  | .ok hdr => (hdr, none)

/-- `UTF8` from decoder.go: identity when the label upper-cases to
`UTF-8`, otherwise the external charset reader. -/
def UTF8 (c : Collab) (cs data : List Nat) : Except Unit (List Nat) :=
  if cs.map toUpperB = ascii "UTF-8" then .ok data else c.charsetRead cs data

/-- The token-list `split` from header.go: split on the separator token;
a trailing segment is appended only when nonempty. -/
def splitToks (s : List Nat) (cur : List (List Nat)) :
    List (List Nat) → List (List (List Nat))
  | [] => if cur = [] then [] else [cur.reverse]
  | t :: rest =>
    if t = s then cur.reverse :: splitToks s [] rest
    else splitToks s (t :: cur) rest

/-- The address loop of `parseAddressList` (header.go lines 34-40): stop
at the first grammar error, returning the addresses parsed so far. -/
def parseAddrLoop (c : Collab) : List (List (List Nat)) → List Address →
    List Address × Option Unit
  | [], al => (al, none)
  | ts :: rest, al =>
    match c.parseAddress ts with
    | .error _ => (al, some ())
    | .ok a => parseAddrLoop c rest (al ++ [a])

/-- `parseAddressList` from header.go: RFC2047-decode the bytes, tokenize
through the external lexer, split on the comma token, and run each group
through the external address grammar. -/
def parseAddressList (c : Collab) (s0 : List Nat) : List Address × Option Unit :=
  let p := decodeRFC2047 c s0
  let s := if p.2 = none then p.1 else s0
  match c.tokenize s with
  | .error _ => ([], some ())
  | .ok ts => parseAddrLoop c (splitToks [44] [] ts) []

/-- An extracted attachment (header.go). -/
structure Attachment where
  Filename : List Nat
  Data : List Nat
deriving DecidableEq

/-- `Message` from header.go.  `Date` holds the external date parser's
opaque result. -/
structure Message where
  Headers : List Nat := []
  Body : List Nat := []
  ParsedHeaders : List (List Nat × List (List Nat)) := []
  MessageID : List Nat := []
  Date : List Nat := []
  Sender : Option Address := none
  From : List Address := []
  ReplyTo : List Address := []
  To : List Address := []
  Cc : List Address := []
  Bcc : List Address := []
  Subject : List Nat := []
  ContentType : List Nat := []
  Comments : List (List Nat) := []
  Keywords : List (List Nat) := []
  InReply : List (List Nat) := []
  References : List (List Nat) := []
  Text : List Nat := []
  Html : List Nat := []
  Attachments : List Attachment := []
  Parts : List Part := []
deriving DecidableEq

/-- Entries of the non-fatal `bodyParsingErrors` list (header.go). -/
inductive BodyErr
  | walker (e : PBErr)
  | filenameMissing
  | filenameDecode
  | base64Failed
deriving DecidableEq

/-- Abnormal termination: the Go runtime panics on out-of-range indexes,
plus the propagated fuel artifact of the body walker. -/
inductive GoStop
  | headerIndexPanic
  | partsIndexPanic
  | dispositionIndexPanic
  | encodingIndexPanic
  | fuelOut
deriving DecidableEq

/-- The header loop of `handleMessage` (header.go lines 113-170): each raw
header is recorded in ParsedHeaders and dispatched on its lower-cased key,
threading Go's single `err` variable.  The third component reports an
early `return` (`err != nil && !ignoreErrors`). -/
def processHeaders (c : Collab) (ignoreErrors : Bool) :
    List RawHeader → Message → Option Unit → Message × Option Unit × Bool
  | [], msg, err => (msg, err, false)
  | rh :: rest, msg, err =>
    let msg := { msg with ParsedHeaders := mapAppend msg.ParsedHeaders rh.Key rh.Value }
    let k := rh.Key.map toLowerB
    let step : Message × Option Unit :=
      if k = ascii "content-type" then
        ({ msg with ContentType := rh.Value }, err)
      else if k = ascii "message-id" then
        -- header.go lines 127-128: `v := bytes.TrimSpace(rh.Value)` is a
        -- dead store, immediately overwritten by
        -- `v = bytes.Trim(rh.Value, "<>")` on the UNtrimmed value.
        ({ msg with MessageID := trimCut rh.Value [60, 62] }, err)
      else if k = ascii "in-reply-to" then
        ({ msg with InReply := msg.InReply ++
          (fieldsB rh.Value).map (fun t => trimCut t [60, 62, 32]) }, err)
      else if k = ascii "references" then
        ({ msg with References := msg.References ++
          (fieldsB rh.Value).map (fun t => trimCut t [60, 62, 32]) }, err)
      else if k = ascii "date" then
        ({ msg with Date := c.parseDate rh.Value }, err)
      else if k = ascii "from" then
        let p := parseAddressList c rh.Value
        ({ msg with From := p.1 }, p.2)
      else if k = ascii "sender" then
        let p := c.parseSingleAddress rh.Value
        ({ msg with Sender := p.1 }, p.2)
      else if k = ascii "reply-to" then
        let p := parseAddressList c rh.Value
        ({ msg with ReplyTo := p.1 }, p.2)
      else if k = ascii "to" then
        let p := parseAddressList c rh.Value
        ({ msg with To := p.1 }, p.2)
      else if k = ascii "cc" then
        let p := parseAddressList c rh.Value
        ({ msg with Cc := p.1 }, p.2)
      else if k = ascii "bcc" then
        let p := parseAddressList c rh.Value
        ({ msg with Bcc := p.1 }, p.2)
      else if k = ascii "subject" then
        let p := Decode c rh.Value
        ({ msg with Subject := p.1 }, p.2)
      else if k = ascii "comments" then
        ({ msg with Comments := msg.Comments ++ [rh.Value] }, err)
      else if k = ascii "keywords" then
        ({ msg with Keywords := msg.Keywords ++
          (splitByte 44 rh.Value).map trimSpaceB }, err)
      else (msg, err)
    if step.2 ≠ none ∧ ignoreErrors = false then (step.1, step.2, true)
    else processHeaders c ignoreErrors rest step.1 step.2

/-- The attachment filename match (header.go line 212):
`regexp.MustCompile("(?msi)name=\"(.*?)\"")` — the lazily captured text
between the first case-insensitive `name="` and the next quote; no match
when no closing quote follows. -/
def findFilename (cd : List Nat) : Option (List Nat) :=
  match findSubIdx (ascii "name=\"") (cd.map toLowerB) with
  | none => none
  | some i =>
    let rest := cd.drop (i + 6)
    if (rest.takeWhile (fun b => ¬ b = 34)).length < rest.length then
      some (rest.takeWhile (fun b => ¬ b = 34))
    else none

/-- The per-part loop of `handleMessage` (header.go lines 189-241):
text/plain and text/html parts set Text/Html (charset-transcoded, raw
bytes on transcoding failure); any other part is inspected for an attachment
Content-Disposition, decoding the filename and the declared
content-transfer-encoding. -/
def handleParts (c : Collab) : List Part → Message → List BodyErr →
    Except GoStop (Message × List BodyErr)
  | [], msg, errs => .ok (msg, errs)
  | part :: rest, msg, errs =>
    if hasSub part.PartType (ascii "text/plain") then
      let msg := match UTF8 c part.Charset part.Data with
        | .error _ => { msg with Text := part.Data }
        | .ok d => { msg with Text := d }
      handleParts c rest msg errs
    else if hasSub part.PartType (ascii "text/html") then
      let msg := match UTF8 c part.Charset part.Data with
        | .error _ => { msg with Html := part.Data }
        | .ok d => { msg with Html := d }
      handleParts c rest msg errs
    else
      match mhGet part.Headers (ascii "Content-Disposition") with
      | none => handleParts c rest msg errs
      | some cds =>
        match cds.head? with
        | none => .error .dispositionIndexPanic
        | some cd0 =>
          if hasSub cd0 (ascii "attachment") then
            match findFilename cd0 with
            | none => handleParts c rest msg (errs ++ [.filenameMissing])
            | some fn =>
              let dfn := Decode c fn
              let fname := if dfn.2 = none then dfn.1 else fn
              let errs := if dfn.2 = none then errs else errs ++ [.filenameDecode]
              match mhGet part.Headers (ascii "Content-Transfer-Encoding") with
              | none =>
                handleParts c rest
                  { msg with Attachments := msg.Attachments ++ [⟨fname, part.Data⟩] } errs
              | some encs =>
                match encs.head? with
                | none => .error .encodingIndexPanic
                | some enc0 =>
                  if enc0.map toLowerB = ascii "base64" then
                    let p := c.b64Decode part.Data
                    let errs := if p.2 = none then errs else errs ++ [.base64Failed]
                    handleParts c rest
                      { msg with Attachments := msg.Attachments ++ [⟨fname, p.1⟩] } errs
                  else if enc0.map toLowerB = ascii "quoted-printable" then
                    handleParts c rest
                      { msg with Attachments :=
                        msg.Attachments ++ [⟨fname, c.qpDecode part.Data⟩] } errs
                  else
                    handleParts c rest
                      { msg with Attachments := msg.Attachments ++ [⟨fname, part.Data⟩] } errs
          else handleParts c rest msg errs

/-- The Sender fallback of `handleMessage` (header.go lines 172-175):
if no sender was set and From is non-empty, Sender becomes `From[0]`. -/
def senderFallback (msg : Message) : Message :=
  match msg.Sender, msg.From with
  | none, a :: _ => { msg with Sender := some a }
  | _, _ => msg

/-- `handleMessage` from header.go: dispatch the headers, apply the
Sender fallback, then walk the body.  The Go triple
`(msg, err, bodyParsingErrors)` is wrapped in `Except` only to surface
runtime panics (and the fuel artifact). -/
def handleMessage (c : Collab) (fuel : Nat) (r : RawMessage) (ignoreErrors : Bool) :
    Except GoStop (Message × Option Unit × List BodyErr) :=
  let s := processHeaders c ignoreErrors r.RawHeaders {} none
  if s.2.2 then .ok (s.1, s.2.1, [])
  else
    let msg := senderFallback s.1
    let err := s.2.1
    if msg.ContentType ≠ [] then
      match parseBody c fuel msg.ContentType r.Body with
      | .error .headerIndexPanic => .error .headerIndexPanic
      | .error .fuelOut => .error .fuelOut
      | .error e => .ok ({ msg with Text := r.Body }, err, [.walker e])
      | .ok parts =>
        match handleParts c parts msg [] with
        | .error g => .error g
        | .ok (msg, bodyErrs) =>
          match parts with
          | [] => .error .partsIndexPanic
          | p0 :: _ =>
            .ok ({ msg with
                      Parts := parts, ContentType := p0.PartType,
                      Text := p0.Data }, err, bodyErrs)
    else .ok ({ msg with Text := r.Body }, err, [])

/-- `extractHeaders` from header.go: remove the body bytes from the full
message by a first-occurrence replace, then trim the listed line-break
variants off the end, in order. -/
def extractHeaders (body data : List Nat) : List Nat :=
  [([10, 13, 10] : List Nat), [13, 10, 10], [13, 10], [10, 13], [10], [13]].foldl
    trimOneSuffix (dropFirstOccurrence data body)

/-- `Parse` from header.go: raw-tokenize, process the message, then attach
the body bytes and the extracted header bytes. -/
def Parse (c : Collab) (fuel : Nat) (data : List Nat) (ignoreErrors : Bool) :
    Except GoStop (Message × Option Unit × List BodyErr) :=
  match ParseRaw data with
  | none => .ok ({}, some (), [])
  | some raw =>
    match handleMessage c fuel raw ignoreErrors with
    | .error g => .error g
    | .ok (msg, err, bpe) =>
      .ok ({ msg with Body := raw.Body, Headers := extractHeaders raw.Body data },
        err, bpe)


/-- Project the Message out of a normal (non-panicking) result. -/
def hmMsg : Except GoStop (Message × Option Unit × List BodyErr) → Option Message
  | .ok (m, _, _) => some m
  | .error _ => none

/-- Project Go's `err` result out of a normal result. -/
def hmErr : Except GoStop (Message × Option Unit × List BodyErr) → Option (Option Unit)
  | .ok (_, e, _) => some e
  | .error _ => none

/-- Project the `bodyParsingErrors` list out of a normal result. -/
def hmBodyErrs : Except GoStop (Message × Option Unit × List BodyErr) → Option (List BodyErr)
  | .ok (_, _, b) => some b
  | .error _ => none

/-- C10: a multipart body with a declared boundary in which the multipart
reader yields zero parts: `parseBody` succeeds with an EMPTY part list,
and `handleMessage` then evaluates `parts[0].Type` — an out-of-range
index, a runtime panic.  The claimed invariant (no-error implies
non-empty) does not hold. -/
theorem C10_empty_parts_then_index_panic :
    parseBody cEx 1 (ascii "multipart/mixed; boundary=b") [7] = .ok [] ∧
    handleMessage cEx 1
        ⟨[⟨ascii "Content-Type", ascii "multipart/mixed; boundary=b"⟩], [7]⟩ false =
      .error .partsIndexPanic := by
  decide

/-- C9: evaluation at the failing input, a Message-ID header whose raw
value carries a trailing space: `Message-ID: <id@x> `.  In header.go the
`bytes.TrimSpace` result is a dead store, immediately overwritten by
`bytes.Trim(rh.Value, "<>")` applied to the UNtrimmed value; the trailing
space blocks the right-side bracket trim, so the stored MessageID is
`id@x> ` and not the claimed `id@x`. -/
theorem C9_message_id_keeps_whitespace :
    (hmMsg (handleMessage cEx 1
        ⟨[⟨ascii "Message-ID", ascii "<id@x> "⟩], ascii "B"⟩ false)).map Message.MessageID =
      some (ascii "id@x> ") ∧
    ascii "id@x> " ≠ ascii "id@x" := by
  decide


lemma senderFallback_contentType (m : Message) :
    (senderFallback m).ContentType = m.ContentType := by
  rw [senderFallback]
  split <;> simp

lemma senderFallback_sender_of (m : Message) (a : Address) (al : List Address)
    (h1 : m.Sender = none) (h2 : m.From = a :: al) :
    (senderFallback m).Sender = some a := by
  rw [senderFallback, h1, h2]

lemma handleParts_sender (c : Collab) (parts : List Part) :
    ∀ msg errs m2 e2, handleParts c parts msg errs = .ok (m2, e2) →
      m2.Sender = msg.Sender := by
  induction parts with
  | nil =>
    intro msg errs m2 e2 h
    rw [handleParts] at h
    simp only [Except.ok.injEq, Prod.mk.injEq] at h
    rw [← h.1]
  | cons part rest ih =>
    intro msg errs m2 e2 h
    rw [handleParts] at h
    dsimp only at h
    repeat' split at h
    all_goals
      first
        | (have h2 := ih _ _ _ _ h; simp [h2])
        | simp at h

lemma handleMessage_view (c : Collab) (fuel : Nat) (r : RawMessage) (ig : Bool)
    (msg1 : Message) (e1 : Option Unit)
    (hh : processHeaders c ig r.RawHeaders {} none = (msg1, e1, false)) :
    handleMessage c fuel r ig =
      (if (senderFallback msg1).ContentType ≠ [] then
        match parseBody c fuel (senderFallback msg1).ContentType r.Body with
        | .error .headerIndexPanic => .error .headerIndexPanic
        | .error .fuelOut => .error .fuelOut
        | .error e => .ok ({ senderFallback msg1 with Text := r.Body }, e1, [.walker e])
        | .ok parts =>
          match handleParts c parts (senderFallback msg1) [] with
          | .error g => .error g
          | .ok (msg2, bodyErrs) =>
            match parts with
            | [] => .error .partsIndexPanic
            | p0 :: _ =>
              .ok ({ msg2 with
                       Parts := parts, ContentType := p0.PartType,
                       Text := p0.Data }, e1, bodyErrs)
      else .ok ({ senderFallback msg1 with Text := r.Body }, e1, [])) := by
  rw [handleMessage, hh]
  rfl


/-- C8: for an input whose header dispatch completes without an early
return, leaving Sender unset and a non-empty From list, every normally
returned Message has Sender equal to the first From entry. -/
theorem C8_sender_defaults_to_first_from (c : Collab) (fuel : Nat) (r : RawMessage)
    (ig : Bool) (msg1 : Message) (e1 : Option Unit) (a : Address) (al : List Address)
    (msg : Message) (e : Option Unit) (bes : List BodyErr)
    (hh : processHeaders c ig r.RawHeaders {} none = (msg1, e1, false))
    (hsen : msg1.Sender = none) (hfrom : msg1.From = a :: al)
    (hok : handleMessage c fuel r ig = .ok (msg, e, bes)) :
    msg.Sender = some a := by
  rw [handleMessage_view c fuel r ig msg1 e1 hh] at hok
  have hs := senderFallback_sender_of msg1 a al hsen hfrom
  repeat' split at hok
  all_goals
    first
      | exact Except.noConfusion hok
      | (simp only [Except.ok.injEq, Prod.mk.injEq] at hok
         obtain ⟨h1, -, -⟩ := hok
         rw [← h1]
         first
           | simpa using hs
           | (have h2 := handleParts_sender c _ _ _ _ _ (by assumption)
              simp [h2, hs]))


/-- Collaborator instance for C8's example: the tokenizer and address
grammar defined on the value `a@x.com, b@x.com`. -/
def cAddr : Collab where
  parseMediaType := fun _ => none
  multipartSplit := fun _ _ => ⟨[], true⟩
  tokenize := fun s =>
    if s = ascii "a@x.com, b@x.com" then
      .ok [ascii "a@x.com", [44], ascii "b@x.com"]
    else .error ()
  parseAddress := fun ts =>
    match ts with
    | [t] => .ok t
    | _ => .error ()
  parseSingleAddress := fun _ => (none, some ())
  parseDate := fun _ => []
  decodeHeaderWord := fun d => .ok d
  charsetRead := fun _ d => .ok d
  b64Decode := fun d => (d, none)
  qpDecode := fun d => d

def rawW8 : RawMessage := ⟨[⟨ascii "From", ascii "a@x.com, b@x.com"⟩], ascii "hi"⟩

def phW8 : Message × Option Unit × Bool :=
  processHeaders cAddr false rawW8.RawHeaders {} none

def hmW8 : Except GoStop (Message × Option Unit × List BodyErr) :=
  handleMessage cAddr 1 rawW8 false

def msgW8 : Message :=
  match hmW8 with
  | .ok x => x.1
  | .error _ => {}

theorem C8_witness : msgW8.Sender = some (ascii "a@x.com") :=
  C8_sender_defaults_to_first_from cAddr 1 rawW8 false phW8.1 none
    (ascii "a@x.com") [ascii "b@x.com"] msgW8 none [] rfl (by decide) (by decide) rfl


/-- Collaborator instance for C1: a multipart body whose first part is
text/html and whose second part is text/plain, both UTF-8. -/
def cC1 : Collab where
  parseMediaType := fun ct =>
    if ct = ascii "multipart/alternative; boundary=d" then
      some (ascii "multipart/alternative", [(ascii "boundary", ascii "d")])
    else if ct = ascii "text/html; charset=UTF-8" then
      some (ascii "text/html", [(ascii "charset", ascii "UTF-8")])
    else if ct = ascii "text/plain; charset=UTF-8" then
      some (ascii "text/plain", [(ascii "charset", ascii "UTF-8")])
    else none
  multipartSplit := fun boundary body =>
    if boundary = ascii "d" ∧ body = [0] then
      ⟨[⟨[(ascii "Content-Type", [ascii "text/html; charset=UTF-8"])], ascii "HTML"⟩,
        ⟨[(ascii "Content-Type", [ascii "text/plain; charset=UTF-8"])], ascii "PLAIN"⟩],
       true⟩
    else ⟨[], true⟩
  tokenize := fun _ => .error ()
  parseAddress := fun _ => .error ()
  parseSingleAddress := fun _ => (none, some ())
  parseDate := fun _ => []
  decodeHeaderWord := fun d => .ok d
  charsetRead := fun _ d => .ok d
  b64Decode := fun d => (d, none)
  qpDecode := fun d => d

/-- C1 counterexample: the body parse succeeds and the flattened list
contains a text/plain part (content `PLAIN`, identity transcoding), yet
the returned Message's Text is `HTML`: the post-loop assignment
`msg.Text = string(parts[0].Data)` (header.go line 245) overwrites the
text/plain assignment made during the loop, because the text/plain part
is not the first part. -/
theorem C1_counterexample :
    parseBody cC1 2 (ascii "multipart/alternative; boundary=d") [0] =
      .ok [⟨ascii "text/html", ascii "UTF-8", ascii "HTML", []⟩,
           ⟨ascii "text/plain", ascii "UTF-8", ascii "PLAIN", []⟩] ∧
    (hmMsg (handleMessage cC1 2
        ⟨[⟨ascii "Content-Type", ascii "multipart/alternative; boundary=d"⟩], [0]⟩
        false)).map Message.Text = some (ascii "HTML") ∧
    ascii "HTML" ≠ ascii "PLAIN" := by
  decide

/-- C1 (amended): whenever the body parse succeeds (with a nonempty part
list) the post-loop assignment of header.go line 245 makes the returned
Text equal to the FIRST Part's raw data, overwriting any text/plain
assignment made during the loop; the text/plain content survives only
when the text/plain part happens to be the first part (and then as its
raw bytes). -/
theorem C1_amended_final_text_is_first_part_data (c : Collab) (fuel : Nat)
    (r : RawMessage) (ig : Bool) (msg1 : Message) (e1 : Option Unit)
    (p0 : Part) (ps : List Part) (msg : Message) (e : Option Unit) (bes : List BodyErr)
    (hh : processHeaders c ig r.RawHeaders {} none = (msg1, e1, false))
    (hct : msg1.ContentType ≠ [])
    (hpb : parseBody c fuel msg1.ContentType r.Body = .ok (p0 :: ps))
    (hok : handleMessage c fuel r ig = .ok (msg, e, bes)) :
    msg.Text = p0.Data := by
  rw [handleMessage_view c fuel r ig msg1 e1 hh] at hok
  rw [if_pos (by rw [senderFallback_contentType]; exact hct)] at hok
  rw [senderFallback_contentType, hpb] at hok
  simp only at hok
  split at hok
  · exact Except.noConfusion hok
  · simp only [Except.ok.injEq, Prod.mk.injEq] at hok
    obtain ⟨h1, -, -⟩ := hok
    rw [← h1]

def rawW1 : RawMessage :=
  ⟨[⟨ascii "Content-Type", ascii "multipart/mixed; boundary=b"⟩], [0]⟩

def phW1 : Message × Option Unit × Bool :=
  processHeaders cEx false rawW1.RawHeaders {} none

def hmW1 : Except GoStop (Message × Option Unit × List BodyErr) :=
  handleMessage cEx 3 rawW1 false

def msgW1 : Message :=
  match hmW1 with
  | .ok x => x.1
  | .error _ => {}

theorem C1_amended_witness : msgW1.Text = [2] :=
  C1_amended_final_text_is_first_part_data cEx 3 rawW1 false phW1.1 none
    ⟨ascii "text/plain", ascii "UTF-8", [2], []⟩
    [⟨ascii "text/html", ascii "UTF-8", [3], []⟩, ⟨ascii "application/pdf", [], [4], []⟩]
    msgW1 none [] rfl (by decide) (by decide) rfl


/-- C7: when raw tokenization and header resolution succeed (no early
return, nil header error) but the body walker fails with a genuine error
value, `Parse` returns normally with no fatal error: Text falls back to
the raw body bytes and the walker error is the single entry of the
non-fatal `bodyParsingErrors` list. -/
theorem C7_body_walker_failure_is_recoverable (c : Collab) (fuel : Nat)
    (data : List Nat) (ig : Bool) (raw : RawMessage) (msg1 : Message) (ewk : PBErr)
    (hraw : ParseRaw data = some raw)
    (hh : processHeaders c ig raw.RawHeaders {} none = (msg1, none, false))
    (hct : msg1.ContentType ≠ [])
    (hpb : parseBody c fuel msg1.ContentType raw.Body = .error ewk)
    (hwk : ewk = .invalidMediaType ∨ ewk = .missingBoundary ∨ ewk = .readerFailure) :
    Parse c fuel data ig =
      .ok ({ { senderFallback msg1 with Text := raw.Body } with
               Body := raw.Body, Headers := extractHeaders raw.Body data },
        none, [.walker ewk]) := by
  rw [Parse, hraw]
  dsimp only
  rw [handleMessage_view c fuel raw ig msg1 none hh]
  rw [if_pos (by rw [senderFallback_contentType]; exact hct)]
  rw [senderFallback_contentType, hpb]
  rcases hwk with rfl | rfl | rfl <;> simp [senderFallback_contentType]

def rawW7 : RawMessage := ⟨[⟨ascii "Content-Type", ascii "badtype"⟩], ascii "BODY"⟩

def phW7 : Message × Option Unit × Bool :=
  processHeaders cEx false rawW7.RawHeaders {} none

theorem C7_witness :
    Parse cEx 1 (ascii "Content-Type: badtype\n\nBODY") false =
      .ok ({ { senderFallback phW7.1 with Text := ascii "BODY" } with
               Body := ascii "BODY",
               Headers := extractHeaders (ascii "BODY")
                 (ascii "Content-Type: badtype\n\nBODY") },
        none, [.walker .invalidMediaType]) :=
  C7_body_walker_failure_is_recoverable cEx 1 (ascii "Content-Type: badtype\n\nBODY")
    false rawW7 phW7.1 .invalidMediaType (by decide) rfl (by decide) (by decide)
    (Or.inl rfl)

end eml
